import Mathlib

/-!
Verification development for the `fossen` browser-utility module
(src/fossen.js).  Each JavaScript helper relevant to a documented claim is
embedded shallowly: plain JS values become the inductive `JVal`, functions
become Lean functions, mutable closure state becomes explicit state records,
and the host's asynchronous callbacks become explicit event lists.
-/

namespace Fossen

/-- A JavaScript value, as used by the utility functions under
verification: the primitives, plus the two kinds of host object the
embedded code paths can observe — a built-in function object (`fnRef`,
such as `Object.prototype.toString`, tagged by the property name under
which it is installed) and a built-in non-function object (`objRef`, such
as `Object.prototype` itself).  Symbols and user-constructed objects are
outside the scope of the claims. -/
inductive JVal where
  | undef
  | null
  | bool (b : Bool)
  | num (n : Int)
  | str (s : String)
  | fnRef (name : String)
  | objRef (name : String)
deriving DecidableEq, Repr

/-- JavaScript truthiness for `JVal` (ToBoolean): every object, function
objects included, is truthy. -/
def truthy : JVal → Bool
  | .undef => false
  | .null => false
  | .bool b => b
  | .num n => n != 0
  | .str s => s != ""
  | .fnRef _ => true
  | .objRef _ => true

/-- JavaScript string coercion (ToString) for `JVal`, as performed by
property-key lookup (`cache[val]`) and by `.toString()`.  A built-in
function stringifies to its native-code source form (approximated with the
tag as the function name — no claim depends on the exact text) and a plain
built-in object to `"[object Object]"`. -/
def jToString : JVal → String
  | .undef => "undefined"
  | .null => "null"
  | .bool true => "true"
  | .bool false => "false"
  | .num n => toString n
  | .str s => s
  | .fnRef name => "function " ++ name ++ "() \x7b [native code] \x7d"
  | .objRef _ => "[object Object]"

/-- The short-circuiting JavaScript `||` operator: returns the first operand
when it is truthy, otherwise the second. -/
def jsOr (a b : JVal) : JVal := if truthy a then a else b

/-! ## Plain-object (`{}`) property semantics

`memoize` and `unique` both use an object literal as their cache, so the
property operations they perform see the `Object.prototype` chain: a read
of an unset key such as `"toString"` yields the inherited (truthy) member,
a write under `"__proto__"` runs the inherited accessor setter (which
silently discards primitive values), and an own `"hasOwnProperty"` data
property shadows the inherited method. -/

/-- The function-valued own properties of `Object.prototype` inherited by
every object literal (the ES5 members plus the Annex B getter/setter
utilities shipped by browsers). -/
def objectPrototypeFunctionMembers : List String :=
  ["constructor", "toString", "toLocaleString", "valueOf", "hasOwnProperty",
   "isPrototypeOf", "propertyIsEnumerable", "__defineGetter__",
   "__defineSetter__", "__lookupGetter__", "__lookupSetter__"]

/-- Reading property `k` on a plain `{}` when no own property shadows it:
the lookup continues on the prototype chain.  The function members are
truthy function objects; `"__proto__"` hits the inherited accessor, whose
getter returns the object's prototype — `Object.prototype` itself, a
truthy object.  `none` models the read yielding `undefined`. -/
def protoGet (k : String) : Option JVal :=
  if k = "__proto__" then some (.objRef "Object.prototype")
  else if k ∈ objectPrototypeFunctionMembers then some (.fnRef k)
  else none

/-! ## memoize (src/fossen.js lines 245-263)

The closure owns `cache` (a plain object mapping stringified keys to
results), plus the two special slots `undefinedResult` and `nullResult`.
We embed the closure state as `MemoState` and one invocation of the
memoized function as `memoCall`, which also reports how many times the
underlying function was invoked during that call (0 or 1).  The cache read
at line 260 goes through the prototype chain (`protoGet`), so keys whose
string form names an inherited `Object.prototype` member hit a truthy
value on the very first call. -/

/-- The closure-private state of a memoized function: the string-keyed
`cache` object and the `undefinedResult` / `nullResult` variables (both
start out as JS `undefined`). -/
structure MemoState where
  cache : List (String × JVal)
  undefinedResult : JVal
  nullResult : JVal
deriving DecidableEq, Repr

/-- The state of the memoize closure right after `memoize(func)` returns. -/
def memoStart : MemoState := ⟨[], .undef, .undef⟩

/-- Reading `cache[k]`: an own property if one exists, otherwise the
inherited `Object.prototype` member if the key names one, otherwise JS
`undefined`. -/
def lookupCache (cache : List (String × JVal)) (k : String) : JVal :=
  match cache.find? (fun p => p.1 == k) with
  | some p => p.2
  | none =>
    match protoGet k with
    | some v => v
    | none => JVal.undef

/-- Creating or overwriting an own data property. -/
def setOwnProp (cache : List (String × JVal)) (k : String) (v : JVal) :
    List (String × JVal) :=
  match cache with
  | [] => [(k, v)]
  | p :: rest => if p.1 == k then (k, v) :: rest else p :: setOwnProp rest k v

/-- Property assignment `cache[k] = v` on a plain `{}`: under the key
`"__proto__"` the inherited accessor setter runs instead and silently
discards a primitive value, creating no own property.  (An object-valued
`__proto__` assignment would re-point the prototype chain; no embedded
code path performs one — `unique` writes the primitive `true`, and
`memoize` never reaches its write for this key because the truthy-guard at
line 260 always hits the inherited accessor first.)  Every other key gets
an own data property, shadowing any inherited member. -/
def setCache (cache : List (String × JVal)) (k : String) (v : JVal) :
    List (String × JVal) :=
  if k = "__proto__" then cache else setOwnProp cache k v

/-- One invocation of the function returned by `memoize(func)` with first
argument `keyArg` (src/fossen.js lines 247-262).  Returns the call's result,
the updated closure state, and the number of invocations of the underlying
`func` made during this call.  Mirrors the source exactly: the
`undefined`/`null` slots are served only when they hold a value other than
`undefined`, and a cached entry is served only when `cache[keyArgString]`
is truthy. -/
def memoCall (func : JVal → JVal) (st : MemoState) (keyArg : JVal) :
    JVal × MemoState × Nat :=
  match keyArg with
  | .undef =>
    if st.undefinedResult != .undef then (st.undefinedResult, st, 0)
    else
      let r := func .undef
      (r, { st with undefinedResult := r }, 1)
  | .null =>
    if st.nullResult != .undef then (st.nullResult, st, 0)
    else
      let r := func .null
      (r, { st with nullResult := r }, 1)
  | k =>
    let keyArgString := jToString k
    let cached := lookupCache st.cache keyArgString
    if truthy cached then (cached, st, 0)
    else
      let r := func k
      (r, { st with cache := setCache st.cache keyArgString r }, 1)

/-- The condition under which a stored memoize result is actually served on
the next call with the same key: the `undefined`/`null` slots are consulted
through an `!== undefined` guard, and string-keyed cache entries through a
truthiness guard (src/fossen.js lines 251, 255, 260). -/
def memoHit (keyArg result : JVal) : Prop :=
  match keyArg with
  | .undef => result ≠ .undef
  | .null => result ≠ .undef
  | _ => truthy result = true

instance (keyArg result : JVal) : Decidable (memoHit keyArg result) := by
  unfold memoHit
  cases keyArg <;> infer_instance

/-- Two consecutive calls to the same memoized function with key arguments
`k1` then `k2`, returning the total number of invocations of the underlying
function. -/
def memoTwiceCount (func : JVal → JVal) (k1 k2 : JVal) : Nat :=
  let r1 := memoCall func memoStart k1
  let r2 := memoCall func r1.2.1 k2
  r1.2.2 + r2.2.2

/-- The result of the second of two consecutive calls with keys `k1`, `k2`. -/
def memoSecondResult (func : JVal → JVal) (k1 k2 : JVal) : JVal :=
  let r1 := memoCall func memoStart k1
  (memoCall func r1.2.1 k2).1

/-! ## unique (src/fossen.js lines 319-330)

`cache` is a plain object, so `cache.hasOwnProperty(val)` and
`cache[val] = true` both coerce `val` to a property-key string: the number
`1` and the string `"1"` use the same key.  Because the cache is a plain
`{}`, two of its operations deviate from a clean key set: the assignment
under the key `"__proto__"` is swallowed by the inherited accessor setter
(the value `true` is not an object), so `hasOwnProperty` keeps answering
false and such elements are re-pushed; and once an own `"hasOwnProperty"`
data property has been created, the next iteration's
`cache.hasOwnProperty(val)` call finds the own value `true` instead of the
inherited method and throws a `TypeError`. -/

/-- The `forEach` loop of `unique` run over the remaining elements, with
the own property keys of `cache` and the `uniqueArray` built so far as
explicit state.  Each iteration first calls `cache.hasOwnProperty(val)`
(throwing when an own `"hasOwnProperty"` shadows the method), skips seen
keys, performs the assignment `cache[val] = true` (a no-op under
`"__proto__"`), and pushes the element. -/
def uniqueRun : List String → List JVal → List JVal → Except String (List JVal)
  | _, uniqueArray, [] => .ok uniqueArray
  | cache, uniqueArray, val :: rest =>
    if "hasOwnProperty" ∈ cache then
      .error "TypeError: cache.hasOwnProperty is not a function"
    else if jToString val ∈ cache then uniqueRun cache uniqueArray rest
    else
      uniqueRun
        (if jToString val = "__proto__" then cache else jToString val :: cache)
        (uniqueArray ++ [val]) rest

/-- `unique(arr)` (src/fossen.js lines 319-330): `.error` models the loop
raising a `TypeError`. -/
def uniqueJ (arr : List JVal) : Except String (List JVal) :=
  uniqueRun [] [] arr

deriving instance DecidableEq for Except

/-- Modelled from the spec's description of the intended result: keep
exactly the first occurrence of each string-coerced key, in input order
(`seen` is the set of keys already emitted). -/
def firstOccAux (seen : List String) : List JVal → List JVal
  | [] => []
  | v :: rest =>
    if jToString v ∈ seen then firstOccAux seen rest
    else v :: firstOccAux (jToString v :: seen) rest

/-- The spec-side reading of `unique`: first occurrence of each
string-coerced key, in input order. -/
def firstOcc (arr : List JVal) : List JVal := firstOccAux [] arr

/-! ## concatUrls (src/fossen.js lines 184-197)

Quirks preserved from the source: the first fragment's trailing-slash test
indexes the *trimmed* string with the *untrimmed* length; later fragments
are not trimmed at all, because `fragment+''.trim()` parses as
`fragment + ("".trim())`. -/

/-- JavaScript string indexing `s[i]`: `undefined` (here `none`) when the
index is out of range. -/
def jsCharAt (s : String) (i : Int) : Option Char :=
  if 0 ≤ i then s.data.get? i.toNat else none

/-- The whitespace characters removed by `String.prototype.trim` (the
ASCII ones; the inputs in scope contain no exotic whitespace). -/
def isJsSpace (c : Char) : Bool :=
  c = ' ' ∨ c = '\t' ∨ c = '\n' ∨ c = '\r'

/-- `s.trim()`. -/
def jsTrim (s : String) : String :=
  ⟨((s.data.dropWhile isJsSpace).reverse.dropWhile isJsSpace).reverse⟩

/-- `s.substr(n)`: drop the first `n` characters. -/
def jsDropChars (s : String) (n : Nat) : String :=
  ⟨s.data.drop n⟩

/-- `s.substr(0, s.length - 1)`: all characters but the last. -/
def jsDropLast (s : String) : String :=
  ⟨s.data.take (s.data.length - 1)⟩

/-- The body of `concatUrls` run on the normalized fragment list
(src/fossen.js lines 185-196).  `none` models the `TypeError` thrown when
the list is empty (`fragments[0].trim()` on `undefined`). -/
def concatUrlsCore (fragments : List String) : Option String :=
  match fragments with
  | [] => none
  | f0 :: rest =>
    let c0 :=
      if jsCharAt (jsTrim f0) ((f0.length : Int) - 1) = some '/' then jsTrim f0
      else jsTrim f0 ++ "/"
    let c := rest.foldl
      (fun cString fragment =>
        if fragment = "" then cString
        else
          let fragment := fragment ++ jsTrim ""
          let fragment :=
            if jsCharAt fragment 0 = some '/' then jsDropChars fragment 1
            else fragment
          cString ++
            (if jsCharAt fragment ((fragment.length : Int) - 1) = some '/' then
              fragment
            else fragment ++ "/"))
      c0
    some (jsDropLast c)

/-- `concatUrls` invoked with a single array argument:
`Array.isArray(fragments)` is true, so the array itself is used. -/
def concatUrlsFromArray (fragments : List String) : Option String :=
  concatUrlsCore fragments

/-- `concatUrls` invoked with the fragments as separate arguments:
`Array.isArray(fragments)` is false, so `arguments` is sliced into an
array. -/
def concatUrlsFromArgs (args : List String) : Option String :=
  concatUrlsCore args

/-! ## DOM geometry: offset, isOutOfView, findClosestScrollableOffsetParent,
scrollY (src/fossen.js lines 559-644)

An element is embedded as its own geometry fields plus the chain of its
`offsetParent` ancestors, nearest first.  All pixel quantities are integers.
The `id` field models object identity, so that "which element's `scrollTop`
is assigned" is expressible. -/

/-- The geometry fields of one DOM element that the module reads or
writes. -/
structure ElemGeom where
  id : Nat
  offsetLeft : Int
  offsetTop : Int
  scrollLeft : Int
  scrollTop : Int
  offsetWidth : Int
  offsetHeight : Int
  scrollHeight : Int
deriving DecidableEq, Repr

/-- An element together with its `offsetParent` chain (nearest ancestor
first; the chain ends where `offsetParent` is null). -/
structure Elem where
  self : ElemGeom
  ancestors : List ElemGeom
deriving DecidableEq, Repr

/-- The record returned by `offset(el)` (src/fossen.js lines 573-582). -/
structure OffsetData where
  left : Int
  top : Int
  offsetLeft : Int
  offsetTop : Int
  windowLeft : Int
  windowTop : Int
  width : Int
  height : Int
deriving DecidableEq, Repr

/-- `offset(el)` (src/fossen.js lines 559-583): walk the `offsetParent`
chain accumulating `left`/`top` (page-relative) and `scrollLeft`/`scrollTop`
(window-relative).  The asymmetry of the loop body — `scrollLeft` only
subtracts the ancestor's `scrollLeft`, while `scrollTop` subtracts
`scrollTop - offsetTop` — is the source's. -/
def offset (el : Elem) : OffsetData :=
  let acc := el.ancestors.foldl
    (fun (s : Int × Int × Int × Int) offsetParent =>
      (s.1 + offsetParent.offsetLeft,
       s.2.1 + offsetParent.offsetTop,
       s.2.2.1 - offsetParent.scrollLeft,
       s.2.2.2 - (offsetParent.scrollTop - offsetParent.offsetTop)))
    (el.self.offsetLeft, el.self.offsetTop, el.self.offsetLeft,
      el.self.offsetTop)
  { left := acc.1
    top := acc.2.1
    offsetLeft := el.self.offsetLeft
    offsetTop := el.self.offsetTop
    windowLeft := acc.2.2.1
    windowTop := acc.2.2.2
    width := el.self.offsetWidth
    height := el.self.offsetHeight }

/-- `isOutOfView(el, partially)` (src/fossen.js lines 599-618), with the
viewport's `document.documentElement.clientWidth/clientHeight` passed
explicitly.  Mirrors the source's early-return chain. -/
def isOutOfView (el : Elem) (partly : Bool) (clientWidth clientHeight : Int) :
    Bool :=
  let elOffset := offset el
  if elOffset.windowTop > clientHeight then true
  else if elOffset.windowLeft > clientWidth then true
  else if elOffset.windowTop + elOffset.height < 0 then true
  else if elOffset.windowLeft + elOffset.width < 0 then true
  else if partly then
    if elOffset.windowTop + elOffset.height > clientHeight ∨
        elOffset.windowTop < 0 then true
    else if elOffset.windowLeft + elOffset.width > clientWidth ∨
        elOffset.windowLeft < 0 then true
    else false
  else false

/-- Spec-side predicate: the element's top edge is below the viewport
bottom (fully below). -/
def fullyBelow (o : OffsetData) (clientHeight : Int) : Bool :=
  o.windowTop > clientHeight

/-- Spec-side predicate: the element's left edge is past the viewport's
right boundary (fully to the right). -/
def fullyRight (o : OffsetData) (clientWidth : Int) : Bool :=
  o.windowLeft > clientWidth

/-- Spec-side predicate: the element's bottom edge is above the viewport
top (fully above). -/
def fullyAbove (o : OffsetData) : Bool :=
  o.windowTop + o.height < 0

/-- Spec-side predicate: the element's right edge is past the viewport's
left boundary (fully to the left). -/
def fullyLeft (o : OffsetData) : Bool :=
  o.windowLeft + o.width < 0

/-- Spec-side predicate: the element is clipped by some viewport edge
(checked only in partial mode). -/
def partlyClipped (o : OffsetData) (clientWidth clientHeight : Int) : Bool :=
  (o.windowTop + o.height > clientHeight) || (o.windowTop < 0) ||
    (o.windowLeft + o.width > clientWidth) || (o.windowLeft < 0)

/-- `findClosestScrollableOffsetParent(el)` (src/fossen.js lines 584-592):
the first `offsetParent` ancestor whose `scrollHeight` exceeds its
`offsetHeight`, or `undefined`. -/
def findClosestScrollableOffsetParent (el : Elem) : Option ElemGeom :=
  el.ancestors.find? (fun offsetParent =>
    offsetParent.scrollHeight > offsetParent.offsetHeight)

/-- `scrollY(el, padding, scrollElement)` (src/fossen.js lines 625-644).
Returns the single `scrollTop` assignment the call performs, as
`(target element id, assigned value)`, or `none` when the element is in
full view and the function returns without effect.  `padding = none` models
passing `undefined`; `bodyId` is the id of `document.body`.  As in the
source, the `scrollElement` parameter is reassigned (shadowed) before it is
ever read. -/
def scrollY (el : Elem) (padding : Option Int) (scrollElement : Nat)
    (clientWidth clientHeight : Int) (bodyId : Nat) : Option (Nat × Int) :=
  if !(isOutOfView el true clientWidth clientHeight) then none
  else
    let elOffset := offset el
    let isPartlyBelow : Bool :=
      elOffset.windowTop + elOffset.height > clientHeight
    let padding := match padding with
      | none => 0
      | some p => p
    let scrollElement := match findClosestScrollableOffsetParent el with
      | some p => p.id
      | none => bodyId
    let scrollTo :=
      if isPartlyBelow then
        (elOffset.offsetTop - clientHeight) + elOffset.height + padding
      else el.self.offsetTop - padding
    some (scrollElement, scrollTo)

/-! ## retry (src/fossen.js lines 271-313)

The retried function may depend on which attempt it is, so it is embedded
as `Nat → Except Unit V` (attempt index, zero-based, to either a failure or
the returned value).  The jQuery deferred is embedded as `DeferredState`:
a settled deferred ignores later `resolve`/`reject` calls.  The inner
`retry` routine decrements `attemptsLeft`, tries the function, and — as in
the source — falls through to `data.deferred.reject()` both when attempts
are exhausted and *after a successful `resolve`* (there is no early return
on the success path).  The model covers the sequences where `afterLoad` is
not in effect (`document.readyState === 'complete'` at call time forces
`data.afterLoad` to `false`, line 305, so the load-event branch at lines
284-288 is never taken); timer delays do not affect the counted
observables. -/

/-- The state of a jQuery-style deferred.  `rejected args` records the
argument list passed to `reject`. -/
inductive DeferredState (V : Type) where
  | pending
  | resolved (v : V)
  | rejected (args : List V)
deriving DecidableEq, Repr

/-- `deferred.resolve(v)`: settles a pending deferred; a no-op on a settled
one. -/
def resolveD {V : Type} (d : DeferredState V) (v : V) : DeferredState V :=
  match d with
  | .pending => .resolved v
  | _ => d

/-- `deferred.reject(args...)`: settles a pending deferred; a no-op on a
settled one. -/
def rejectD {V : Type} (d : DeferredState V) (args : List V) :
    DeferredState V :=
  match d with
  | .pending => .rejected args
  | _ => d

/-- Whether a deferred is currently fulfilled. -/
def isResolvedD {V : Type} : DeferredState V → Bool
  | .resolved _ => true
  | _ => false

/-- The observables of one full retry sequence: the final deferred state,
the total number of invocations of the retried function, and how many
`reject()` calls were executed while the deferred was already fulfilled
(each such call is a no-op). -/
structure RetryResult (V : Type) where
  deferred : DeferredState V
  calls : Nat
  lateRejects : Nat
deriving DecidableEq, Repr

/-- One entry into the inner `retry(data)` routine (src/fossen.js lines
274-297): try `data.func()`; on success resolve the deferred and then —
with no intervening return — run `data.deferred.reject()` (a no-op on the
now-fulfilled deferred); on failure continue with `onFail` (the rest of
the `catch` block and what follows). -/
def retryAttempt {V : Type} (func : Nat → Except Unit V) (callIdx : Nat)
    (d : DeferredState V) (onFail : RetryResult V) : RetryResult V :=
  match func callIdx with
  | .ok v =>
    let d1 := resolveD d v
    { deferred := rejectD d1 []
      calls := callIdx + 1
      lateRejects := if isResolvedD d1 then 1 else 0 }
  | .error _ => onFail

/-- The outcome when the `catch` block falls through to
`data.deferred.reject()` because the decremented counter is not positive. -/
def retryExhausted {V : Type} (callIdx : Nat) (d : DeferredState V) :
    RetryResult V :=
  { deferred := rejectD d []
    calls := callIdx + 1
    lateRejects := if isResolvedD d then 1 else 0 }

/-- The inner `retry(data)` routine run to completion of the whole
sequence.  The first argument after `func` is `data.attemptsLeft` on
entry, `callIdx` the zero-based index of this invocation of `data.func`.
Each entry first decrements `attemptsLeft` (`data.attemptsLeft--`, line
277); on failure the next attempt is scheduled only when the decremented
counter is still positive (line 289), so entries at `attemptsLeft ≤ 1`
fall through to `reject()` on failure, and an entry at `attemptsLeft =
a + 2` recurses with counter `a + 1`. -/
def retryLoop {V : Type} (func : Nat → Except Unit V) :
    Nat → Nat → DeferredState V → RetryResult V
  | 0, callIdx, d => retryAttempt func callIdx d (retryExhausted callIdx d)
  | 1, callIdx, d => retryAttempt func callIdx d (retryExhausted callIdx d)
  | a + 2, callIdx, d =>
    retryAttempt func callIdx d (retryLoop func (a + 1) (callIdx + 1) d)

/-- The public `retry(functionToRetry, afterLoad, attempts, delay)`
(src/fossen.js lines 299-312) with `afterLoad` not in effect.  `attempts`
is `0` when the caller omits it; `attempts || defaultAttempts` then yields
the default budget of 5.  The sequence starts on a fresh pending deferred
with the first attempt made synchronously. -/
def retryModel {V : Type} (func : Nat → Except Unit V) (attempts : Nat) :
    RetryResult V :=
  retryLoop func (if attempts = 0 then 5 else attempts) 0 .pending

/-! ## override (src/fossen.js lines 31-63)

A JS function value is embedded as `JVal → List JVal → V` (receiver and
argument list to result).  The `typeof f !== 'function'` checks are
embedded by wrapping each argument in `JsFun`, whose `notCallable` case
carries the non-function value.  The per-invocation state object is split
into the immutable part (`OverrideCtx`: the `original` reference and the
two forwarding closures) and the mutable fields the overrider may reassign
(`MutOverrideState`: `thisArg` and `argsAsArray`); mutation becomes
explicit state passing, so `state.callOverridden` is a function of the
*current* mutable fields while `state.callOriginal` closes over the
pristine receiver and arguments and ignores them. -/

/-- An argument that may or may not be callable (`typeof x === 'function'`). -/
inductive JsFun (α : Type) where
  | callable (f : α)
  | notCallable (v : JVal)

/-- The mutable fields of the override state record. -/
structure MutOverrideState where
  thisArg : JVal
  argsAsArray : List JVal
deriving DecidableEq, Repr

/-- The immutable part of the override state record: `original` plus the
two forwarding closures (each a function of the current mutable fields). -/
structure OverrideCtx (V : Type) where
  original : JVal → List JVal → V
  callOverridden : MutOverrideState → V
  callOriginal : MutOverrideState → V

/-- The state record built at the top of `spy` (src/fossen.js lines 33-48)
for a call with receiver `originalThis` and arguments
`originalArgsAsArray`. -/
def mkOverrideState {V : Type} (funcToOverride : JVal → List JVal → V)
    (originalThis : JVal) (originalArgsAsArray : List JVal) : OverrideCtx V :=
  { original := funcToOverride
    callOverridden := fun state => funcToOverride state.thisArg state.argsAsArray
    callOriginal := fun _ => funcToOverride originalThis originalArgsAsArray }

/-- The wrapper returned by `override`: its call behaviour and the
`__original` property attached at line 60. -/
structure Spy (V R : Type) where
  call : JVal → List JVal → R
  __original : JVal → List JVal → V

/-- The wrapper built for callable `funcToOverride` and `overrider`: a call
with receiver `thisArg` and arguments `args` builds the state record and
returns the overrider's result on it (the overrider is applied exactly
once, to the freshly built state). -/
def mkSpy {V R : Type} (funcToOverride : JVal → List JVal → V)
    (overrider : OverrideCtx V → MutOverrideState → R) : Spy V R :=
  { call := fun thisArg args =>
      overrider (mkOverrideState funcToOverride thisArg args) ⟨thisArg, args⟩
    __original := funcToOverride }

/-- `override(funcToOverride, overrider)` (src/fossen.js lines 31-63):
validates that both arguments are callable (`funcToOverride` first, throwing
the source's error messages) and returns the wrapper. -/
def override {V R : Type} (funcToOverride : JsFun (JVal → List JVal → V))
    (overrider : JsFun (OverrideCtx V → MutOverrideState → R)) :
    Except String (Spy V R) :=
  match funcToOverride with
  | .notCallable _ => .error "funcToOverride must be a function"
  | .callable f =>
    match overrider with
    | .notCallable _ => .error "Overrider argument must be a function"
    | .callable g => .ok (mkSpy f g)

/-! ## ajax (src/fossen.js lines 692-799)

Only the callback discipline is claimed, so the embedding models the
transport's completion events.  Each event carries a snapshot of the
request object's `status` / `response` / `responseText` fields at the
moment the handler runs (`status = none` models a transport, such as
XDomainRequest, whose `status` is `undefined`).  The handlers are the
closures produced by `cb(statusCode, responseText)` (lines 758-766), all
sharing the one `called` flag; `onreadystatechange` runs the `onload`
closure only when `readyState === 4` (lines 771-773). -/

/-- A completion event delivered by the transport. -/
inductive AjaxEvent where
  | onload
  | onreadystatechange (readyState : Int)
  | onerror
  | ontimeout
  | onabort
deriving DecidableEq, Repr

/-- The fields of the request object read by the `cb` closures, as they
are at the moment a handler runs. -/
structure ReqSnapshot where
  status : Option Int
  response : JVal
  responseText : JVal
deriving DecidableEq, Repr

/-- One recorded invocation of the user callback: its three arguments.
`request` is the identity of the request handle passed as the third
argument. -/
structure CbCall where
  status : JVal
  payload : JVal
  request : Nat
deriving DecidableEq, Repr

/-- The body of the closure returned by `cb(statusCode, responseText)`
(src/fossen.js lines 758-766), run against the request snapshot `req`:
the status argument is `req.status` unless that is `undefined`, in which
case the captured `statusCode`; the payload is
`req.response || req.responseText || responseText`. -/
def mkCb (reqId : Nat) (req : ReqSnapshot) (statusCode : JVal)
    (responseText : JVal) : CbCall :=
  { status := match req.status with
      | none => statusCode
      | some s => .num s
    payload := jsOr req.response (jsOr req.responseText responseText)
    request := reqId }

/-- Whether an event causes one of the `cb` closures to run:
`onreadystatechange` only does so at `readyState === 4`. -/
def effectiveEvent : AjaxEvent → Bool
  | .onreadystatechange readyState => readyState == 4
  | _ => true

/-- The handler wired to each event (src/fossen.js lines 770-776), ignoring
the `called` flag: `none` when the event does not run a `cb` closure. -/
def handleEvent (reqId : Nat) : AjaxEvent × ReqSnapshot → Option CbCall
  | (.onload, req) => some (mkCb reqId req (.num 200) .undef)
  | (.onreadystatechange readyState, req) =>
    if readyState == 4 then some (mkCb reqId req (.num 200) .undef) else none
  | (.onerror, req) => some (mkCb reqId req .null (.str "Error"))
  | (.ontimeout, req) => some (mkCb reqId req .null (.str "Timeout"))
  | (.onabort, req) => some (mkCb reqId req .null (.str "Abort"))

/-- Delivery of a sequence of events to one request's handlers, threading
the shared `called` flag: a `cb` closure that runs invokes the user
callback only when `called` is still false, and then sets it. -/
def runEventsAux (reqId : Nat) (called : Bool) :
    List (AjaxEvent × ReqSnapshot) → List CbCall
  | [] => []
  | ev :: rest =>
    match handleEvent reqId ev with
    | none => runEventsAux reqId called rest
    | some c =>
      if called then runEventsAux reqId true rest
      else c :: runEventsAux reqId true rest

/-- The user-callback invocations produced by delivering `evs` to a fresh
request (`called` starts false). -/
def runEvents (reqId : Nat) (evs : List (AjaxEvent × ReqSnapshot)) :
    List CbCall :=
  runEventsAux reqId false evs

/-! ## throttle and debounce (src/fossen.js lines 807-841)

Both wrappers keep a private `timeout` slot and schedule a callback on the
host timer; the host later fires that callback with the host's own receiver
and no arguments.  The scheduled callback is embedded as a function of the
receiver and argument list the timer facility invokes it with.  `throttle`
(lines 809-819) captures `self = this` and `args = toArray(arguments)` from
the wrapper call and applies `func` to those; `debounce`'s `onTimeout`
(lines 832-835) applies `func` to *its own* `this` and `arguments`, which
are the timer invocation's, not the wrapper call's. -/

/-- The closure-private timer slot of a throttle/debounce wrapper: the
pending scheduled callback (with its timer id), if any. -/
structure TimerState (α : Type) where
  pending : Option (Nat × (JVal → List JVal → α))
  nextId : Nat

/-- One call to the wrapper returned by `debounce(func, duration)`
(src/fossen.js lines 831-840) with receiver `thisArg` and arguments `args`:
any pending timer is cleared and `onTimeout` is scheduled anew.  `onTimeout`
applies `func` to the receiver and arguments *of the timer invocation*;
`thisArg` and `args` do not occur in the scheduled callback. -/
def debounceCall {α : Type} (func : JVal → List JVal → α) (st : TimerState α)
    (thisArg : JVal) (args : List JVal) : TimerState α :=
  { pending := some (st.nextId, fun timerThis timerArgs => func timerThis timerArgs)
    nextId := st.nextId + 1 }

/-- One call to the wrapper returned by `throttle(func, throttleAmount)`
(src/fossen.js lines 809-819): nothing happens while a timer is pending;
otherwise the scheduled callback closes over the wrapper call's receiver
and arguments and applies `func` to those, ignoring the timer
invocation's. -/
def throttleCall {α : Type} (func : JVal → List JVal → α) (st : TimerState α)
    (thisArg : JVal) (args : List JVal) : TimerState α :=
  match st.pending with
  | some _ => st
  | none =>
    { pending := some (st.nextId, fun _ _ => func thisArg args)
      nextId := st.nextId + 1 }

/-- The host timer firing a scheduled callback: it is invoked with the
host environment's receiver and an empty argument list. -/
def timerFire {α : Type} (cb : JVal → List JVal → α) (hostThis : JVal) : α :=
  cb hostThis []

/-! ## Theorems -/

/-- C2: invoking the wrapper produced by `override(F, G)` applies `G`
exactly once, to a state record whose `original` field is `F`, whose
`thisArg`/`argsAsArray` are the call's receiver and arguments, and the
wrapper's result is that single application's result; `callOverridden`
invokes `F` with the current (possibly mutated) `thisArg`/`argsAsArray`,
while `callOriginal` invokes `F` with the pristine receiver and arguments
whatever the mutable fields hold; `override` raises the source's errors
when either argument is not callable; and the wrapper exposes `F` as its
`__original` property. -/
theorem override_contract {V R : Type} :
    ∀ (F : JVal → List JVal → V) (G : OverrideCtx V → MutOverrideState → R)
      (thisArg : JVal) (args : List JVal),
      override (.callable F) (.callable G) = .ok (mkSpy F G) ∧
      (mkSpy F G).call thisArg args =
        G (mkOverrideState F thisArg args) ⟨thisArg, args⟩ ∧
      (mkOverrideState F thisArg args).original = F ∧
      (∀ m : MutOverrideState,
        (mkOverrideState F thisArg args).callOverridden m =
          F m.thisArg m.argsAsArray) ∧
      (∀ m : MutOverrideState,
        (mkOverrideState F thisArg args).callOriginal m = F thisArg args) ∧
      (mkSpy F G).__original = F ∧
      (∀ (v : JVal) (G2 : JsFun (OverrideCtx V → MutOverrideState → R)),
        override (.notCallable v) G2 =
          .error "funcToOverride must be a function") ∧
      (∀ v : JVal, override (.callable F)
          ((.notCallable v : JsFun (OverrideCtx V → MutOverrideState → R))) =
          .error "Overrider argument must be a function") :=
  fun _ _ _ _ =>
    ⟨rfl, rfl, rfl, fun _ => rfl, fun _ => rfl, rfl, fun _ _ => rfl,
      fun _ => rfl⟩

/-- Auxiliary for C6: the `unique` loop, run from any intermediate state
whose own keys do not contain `"hasOwnProperty"`, over elements none of
which string-coerce to `"__proto__"` or `"hasOwnProperty"`, completes
without throwing and extends the output with the first occurrences of the
keys not yet seen. -/
theorem uniqueRun_ok (arr : List JVal) :
    ∀ (cache : List String) (out : List JVal),
      "hasOwnProperty" ∉ cache →
      (∀ v ∈ arr, jToString v ≠ "__proto__" ∧ jToString v ≠ "hasOwnProperty") →
      uniqueRun cache out arr = .ok (out ++ firstOccAux cache arr) := by
  induction arr with
  | nil => intro cache out _ _; simp [uniqueRun, firstOccAux]
  | cons v rest ih =>
    intro cache out h1 h2
    have hv := h2 v (List.mem_cons_self v rest)
    have h2rest : ∀ w ∈ rest, jToString w ≠ "__proto__" ∧
        jToString w ≠ "hasOwnProperty" :=
      fun w hw => h2 w (List.mem_cons_of_mem v hw)
    by_cases hm : jToString v ∈ cache
    · simp [uniqueRun, h1, hm, firstOccAux, ih cache out h1 h2rest]
    · have h1new : "hasOwnProperty" ∉ jToString v :: cache := by
        intro hmem
        rcases List.mem_cons.mp hmem with he | hin
        · exact hv.2 he.symm
        · exact h1 hin
      simp [uniqueRun, h1, hm, firstOccAux, hv.1,
        ih (jToString v :: cache) (out ++ [v]) h1new h2rest]

/-- C6 counterexample: the claim's universal first-occurrence statement
fails at `["__proto__", "__proto__"]` — the assignment
`cache["__proto__"] = true` is swallowed by the inherited accessor setter,
so no own key is recorded and both copies are kept; moreover once an
element string-coercing to `"hasOwnProperty"` has been recorded, the own
property shadows the inherited method and the next iteration throws. -/
theorem unique_keeps_proto_duplicates :
    uniqueJ [.str "__proto__", .str "__proto__"] ≠
      .ok (firstOcc [.str "__proto__", .str "__proto__"]) ∧
    uniqueJ [.str "__proto__", .str "__proto__"] =
      .ok [.str "__proto__", .str "__proto__"] ∧
    uniqueJ [.str "hasOwnProperty", .num 1] =
      .error "TypeError: cache.hasOwnProperty is not a function" :=
  ⟨by decide, by decide, by decide⟩

/-- C6 (amended): `unique([1,1,2,"1"])` returns `[1,2]` — the number `1`
and the string `"1"` share their string-coerced cache key — and `unique`
keeps exactly the first occurrence of each string-coerced key, in input
order, for every input array none of whose elements string-coerce to the
special plain-object keys `"__proto__"` (never recorded as seen: the
inherited accessor swallows the write, so every occurrence is kept) or
`"hasOwnProperty"` (once recorded, the own property shadows the inherited
method and the next iteration throws a TypeError). -/
theorem unique_keeps_first_occurrence_outside_proto_keys :
    uniqueJ [.num 1, .num 1, .num 2, .str "1"] = .ok [.num 1, .num 2] ∧
    jToString (.num 1) = jToString (.str "1") ∧
    (∀ arr, (∀ v ∈ arr, jToString v ≠ "__proto__" ∧
        jToString v ≠ "hasOwnProperty") →
      uniqueJ arr = .ok (firstOcc arr)) := by
  refine ⟨by decide, by decide, fun arr h => ?_⟩
  have := uniqueRun_ok arr [] [] (List.not_mem_nil _) h
  simpa [uniqueJ, firstOcc] using this

/-- Witness for C6 (amended): `[1, 1, "2"]` contains no element coercing
to a special plain-object key, and `unique` keeps the first occurrences
`[1, "2"]`. -/
theorem unique_keeps_first_occurrence_outside_proto_keys_witness :
    uniqueJ [.num 1, .num 1, .str "2"] =
      .ok (firstOcc [.num 1, .num 1, .str "2"]) :=
  unique_keeps_first_occurrence_outside_proto_keys.2.2
    [.num 1, .num 1, .str "2"] (by decide)

/-- C7: `concatUrls("a/", "/b", "c/")` yields `"a/b/c"`, and calling
`concatUrls` with a single array argument always equals calling it with the
same fragments as separate arguments — in particular on `["a","b"]`. -/
theorem concatUrls_example_and_array_args_agree :
    concatUrlsFromArgs ["a/", "/b", "c/"] = some "a/b/c" ∧
    (∀ fragments, concatUrlsFromArray fragments = concatUrlsFromArgs fragments) ∧
    concatUrlsFromArray ["a", "b"] = concatUrlsFromArgs ["a", "b"] :=
  ⟨by decide, fun _ => rfl, rfl⟩

/-- C9: when the quiet-period timer fires, the wrapper produced by
`debounce(F, duration)` invokes `F` with the timer invocation's receiver
and empty argument list — the receiver and arguments given to the debounced
wrapper never reach the scheduled callback, whose identity is independent
of them — whereas `throttle`'s scheduled callback forwards the wrapper
call's receiver and arguments. -/
theorem debounce_discards_receiver_and_args {α : Type} :
    ∀ (func : JVal → List JVal → α) (st : TimerState α) (nextId : Nat)
      (thisArg : JVal) (args : List JVal) (hostThis : JVal),
      (debounceCall func st thisArg args).pending.map
          (fun p => timerFire p.2 hostThis) = some (func hostThis []) ∧
      (∀ (thisArg2 : JVal) (args2 : List JVal),
        debounceCall func st thisArg args = debounceCall func st thisArg2 args2) ∧
      (throttleCall func ⟨none, nextId⟩ thisArg args).pending.map
          (fun p => timerFire p.2 hostThis) = some (func thisArg args) :=
  fun _ _ _ _ _ _ => ⟨rfl, fun _ _ => rfl, rfl⟩

/-- Auxiliary for C1: if the retried function fails on attempts
`callIdx, …, callIdx + n - 1` and succeeds on attempt `callIdx + n`, and
more than `n` attempts remain, the sequence resolves the deferred with the
returned value after the success, having made `n + 1` further invocations,
and then executes exactly one (no-op) `reject()` on the fulfilled
deferred. -/
theorem retryLoop_resolves {V : Type} (func : Nat → Except Unit V) (v : V) :
    ∀ (n attemptsLeft callIdx : Nat), n < attemptsLeft →
      (∀ j, j < n → func (callIdx + j) = .error ()) →
      func (callIdx + n) = .ok v →
      retryLoop func attemptsLeft callIdx .pending =
        { deferred := .resolved v, calls := callIdx + n + 1, lateRejects := 1 } := by
  intro n
  induction n with
  | zero =>
    intro attemptsLeft callIdx _ _ hsucc
    rw [Nat.add_zero] at hsucc
    rcases attemptsLeft with _ | _ | a <;>
      simp [retryLoop, retryAttempt, hsucc, resolveD, rejectD, isResolvedD]
  | succ n ih =>
    intro attemptsLeft callIdx hA hfail hsucc
    have h0 : func callIdx = .error () := by
      have h1 := hfail 0 (Nat.succ_pos n)
      rwa [Nat.add_zero] at h1
    rcases attemptsLeft with _ | _ | a
    · omega
    · omega
    · have hrec : retryLoop func (a + 2) callIdx (.pending : DeferredState V) =
          retryLoop func (a + 1) (callIdx + 1) .pending := by
        simp [retryLoop, retryAttempt, h0]
      rw [hrec]
      have hfail2 : ∀ j, j < n → func (callIdx + 1 + j) = .error () := by
        intro j hj
        have harith : callIdx + 1 + j = callIdx + (j + 1) := by omega
        rw [harith]
        exact hfail (j + 1) (by omega)
      have hsucc2 : func (callIdx + 1 + n) = .ok v := by
        have harith : callIdx + 1 + n = callIdx + (n + 1) := by omega
        rw [harith]; exact hsucc
      rw [ih (a + 1) (callIdx + 1) (by omega) hfail2 hsucc2]
      have harith : callIdx + 1 + n + 1 = callIdx + (n + 1) + 1 := by omega
      rw [harith]

/-- C1 counterexample: with a function that succeeds on its very first
attempt and the default budget, the deferred is fulfilled with the return
value after one invocation, but the sequence does NOT stop at the
fulfilment — the unconditional `data.deferred.reject()` after the `try`
block still executes once on the already-fulfilled deferred, refuting the
claim that no rejection of the deferred is attempted after fulfilment. -/
theorem retry_success_still_attempts_reject :
    (retryModel (fun _ => Except.ok (42 : Int)) 0).deferred = .resolved 42 ∧
    (retryModel (fun _ => Except.ok (42 : Int)) 0).calls = 1 ∧
    (retryModel (fun _ => Except.ok (42 : Int)) 0).lateRejects ≠ 0 :=
  ⟨rfl, rfl, by decide⟩

/-- C1 (amended): for a function that fails the first N-1 attempts and
returns a value on the Nth (N at most the configured attempt budget), the
deferred is fulfilled with that value after exactly N invocations and no
further invocations occur; however, one rejection of the same deferred IS
attempted after the fulfilment (the unconditional `reject()` following the
`try` block), and it is a no-op: the deferred stays fulfilled. -/
theorem retry_success_fulfills_after_n_attempts {V : Type}
    (func : Nat → Except Unit V) (v : V) (n attempts : Nat)
    (hA : n < (if attempts = 0 then 5 else attempts))
    (hfail : ∀ j, j < n → func j = .error ())
    (hsucc : func n = .ok v) :
    retryModel func attempts =
      { deferred := .resolved v, calls := n + 1, lateRejects := 1 } := by
  have h := retryLoop_resolves func v n (if attempts = 0 then 5 else attempts) 0 hA
    (fun j hj => by rw [Nat.zero_add]; exact hfail j hj)
    (by rw [Nat.zero_add]; exact hsucc)
  rw [retryModel, h, Nat.zero_add]

/-- Witness for C1 (amended): a function failing once then succeeding with
`7`, with `attempts = 3`, fulfills with `7` after 2 invocations and one
no-op late reject. -/
theorem retry_success_fulfills_after_n_attempts_witness :
    retryModel (fun i => if i = 1 then Except.ok (7 : Int) else .error ()) 3 =
      { deferred := .resolved 7, calls := 2, lateRejects := 1 } :=
  retry_success_fulfills_after_n_attempts
    (fun i => if i = 1 then Except.ok (7 : Int) else .error ()) 7 1 3
    (by decide)
    (fun j hj => by
      have hj0 : j = 0 := by omega
      subst hj0
      rfl)
    rfl

/-- C5: with a function that always raises and `attempts = 3` (afterLoad
not in effect), the deferred is rejected after exactly 3 invocations, and
the rejection carries no payload (`reject()` is called with an empty
argument list). -/
theorem retry_exhaustion_rejects_after_three {V : Type}
    (func : Nat → Except Unit V) (h : ∀ i, func i = .error ()) :
    retryModel func 3 =
      { deferred := .rejected [], calls := 3, lateRejects := 0 } := by
  have hf : func = fun _ => Except.error () := funext h
  subst hf
  rfl

/-- Witness for C5. -/
theorem retry_exhaustion_rejects_after_three_witness :
    retryModel (fun _ => Except.error () : Nat → Except Unit Int) 3 =
      { deferred := .rejected [], calls := 3, lateRejects := 0 } :=
  retry_exhaustion_rejects_after_three _ (fun _ => rfl)

/-- C4 counterexample: `memoize` serves a string-keyed cache entry only
when the cached value is truthy, so a function returning the falsy value
`0` is invoked again on the second call with the same key `1` — two
invocations in total, refuting "invokes the underlying F exactly once" as
a universal statement. -/
theorem memoize_reinvokes_on_falsy_result :
    memoTwiceCount (fun _ => .num 0) (.num 1) (.num 1) ≠ 1 := by decide

/-- C4 (amended): calling the memoized function twice with the same key
invokes the underlying function exactly once — provided the key's string
coercion is not a property inherited from `Object.prototype` and the first
result survives the cache guard (truthy for string-coerced keys; not
`undefined` for the `undefined`/`null` slots) — and the second call
returns that first result.  For a key naming an inherited member, such as
`"toString"`, the truthy-guard at line 260 hits the inherited function on
the very first call, so the underlying function is invoked zero times and
both calls return the inherited member.  The `undefined`-key slot is
distinct from the `null`-key slot: calling with `undefined` and then
`null` always invokes the function twice. -/
theorem memoize_invokes_once_when_result_cacheable
    (func : JVal → JVal) (k : JVal) (h : memoHit k (func k))
    (hk : protoGet (jToString k) = none) :
    memoTwiceCount func k k = 1 ∧
    memoSecondResult func k k = func k ∧
    (∀ g : JVal → JVal, memoTwiceCount g .undef .null = 2) ∧
    (∀ g : JVal → JVal,
      memoTwiceCount g (.str "toString") (.str "toString") = 0 ∧
      memoSecondResult g (.str "toString") (.str "toString") =
        .fnRef "toString") := by
  have hproto : jToString k ≠ "__proto__" := by
    intro he
    rw [he] at hk
    simp [protoGet] at hk
  refine ⟨?_, ?_, fun g => rfl, fun g => ⟨rfl, rfl⟩⟩ <;>
    cases k <;>
      simp_all [memoHit, memoTwiceCount, memoSecondResult, memoCall,
        memoStart, lookupCache, setCache, setOwnProp, truthy, List.find?]

/-- Witness for C4 (amended): a function returning the truthy `7`, called
twice with key `1` (whose string form `"1"` is no inherited property),
runs once and the second call returns `7`; the `undefined`/`null` slots of
any memoized function are distinct; and with key `"toString"` the
underlying function is never invoked. -/
theorem memoize_invokes_once_when_result_cacheable_witness :
    memoTwiceCount (fun _ => .num 7) (.num 1) (.num 1) = 1 ∧
    memoSecondResult (fun _ => .num 7) (.num 1) (.num 1) = .num 7 ∧
    memoTwiceCount (fun _ => .num 7) .undef .null = 2 ∧
    memoTwiceCount (fun _ => .num 7) (.str "toString") (.str "toString") = 0 :=
  ⟨(memoize_invokes_once_when_result_cacheable (fun _ => .num 7) (.num 1)
      (by decide) (by decide)).1,
   (memoize_invokes_once_when_result_cacheable (fun _ => .num 7) (.num 1)
      (by decide) (by decide)).2.1,
   (memoize_invokes_once_when_result_cacheable (fun _ => .num 7) (.num 1)
      (by decide) (by decide)).2.2.1 _,
   ((memoize_invokes_once_when_result_cacheable (fun _ => .num 7) (.num 1)
      (by decide) (by decide)).2.2.2 (fun _ => .num 7)).1⟩

/-- C8: an element whose window-relative top coordinate equals the viewport
client height plus 10 is reported fully out of view in non-partial mode;
in general `isOutOfView` returns the disjunction of fully-below,
fully-right, fully-above, fully-left, and — in partial mode only — clipping
on any edge (evaluated in the source's short-circuit order), so it returns
`false` exactly when none of the applicable conditions hold. -/
theorem isOutOfView_classifies_visibility :
    (∀ (el : Elem) (clientWidth clientHeight : Int),
      (offset el).windowTop = clientHeight + 10 →
      isOutOfView el false clientWidth clientHeight = true) ∧
    (∀ (el : Elem) (partly : Bool) (clientWidth clientHeight : Int),
      isOutOfView el partly clientWidth clientHeight =
        (fullyBelow (offset el) clientHeight ||
          fullyRight (offset el) clientWidth ||
          fullyAbove (offset el) ||
          fullyLeft (offset el) ||
          (partly && partlyClipped (offset el) clientWidth clientHeight))) := by
  constructor
  · intro el clientWidth clientHeight h
    have hgt : (offset el).windowTop > clientHeight := by omega
    simp [isOutOfView, hgt]
  · intro el partly clientWidth clientHeight
    simp only [isOutOfView, fullyBelow, fullyRight, fullyAbove, fullyLeft,
      partlyClipped]
    split_ifs <;> simp_all [not_or] <;> tauto

/-- Witness for C8: an element 110 pixels down in a 100-pixel-high viewport
(window-relative top = clientHeight + 10) is fully out of view. -/
theorem isOutOfView_classifies_visibility_witness :
    isOutOfView ⟨⟨1, 0, 110, 0, 0, 50, 20, 20⟩, []⟩ false 100 100 = true :=
  isOutOfView_classifies_visibility.1 ⟨⟨1, 0, 110, 0, 0, 50, 20, 20⟩, []⟩
    100 100 (by decide)

/-- Auxiliary for C3: once the shared `called` flag is set, no further
event invokes the user callback. -/
theorem runEventsAux_called (reqId : Nat) :
    ∀ evs : List (AjaxEvent × ReqSnapshot), runEventsAux reqId true evs = [] := by
  intro evs
  induction evs with
  | nil => rfl
  | cons ev rest ih =>
    rw [runEventsAux]
    cases handleEvent reqId ev <;> simp [ih]

/-- Auxiliary for C3: a handler runs a `cb` closure exactly for the
effective events (`onreadystatechange` only at `readyState === 4`). -/
theorem handleEvent_isSome (reqId : Nat) (ev : AjaxEvent × ReqSnapshot) :
    (handleEvent reqId ev).isSome = effectiveEvent ev.1 := by
  obtain ⟨e, req⟩ := ev
  cases e with
  | onreadystatechange readyState =>
    by_cases h : readyState == 4 <;> simp_all [handleEvent, effectiveEvent]
  | _ => rfl

/-- Auxiliary for C3: the callback invocations produced by an event
sequence are exactly the handling of its first effective event. -/
theorem runEvents_eq_first_effective (reqId : Nat)
    (evs : List (AjaxEvent × ReqSnapshot)) :
    runEvents reqId evs =
      ((evs.find? (fun ev => effectiveEvent ev.1)).bind
        (handleEvent reqId)).toList := by
  rw [runEvents]
  induction evs with
  | nil => rfl
  | cons ev rest ih =>
    rw [runEventsAux]
    cases hh : handleEvent reqId ev with
    | none =>
      have he : effectiveEvent ev.1 = false := by
        rw [← handleEvent_isSome reqId ev, hh]; rfl
      simp only [List.find?, he]
      exact ih
    | some c =>
      have he : effectiveEvent ev.1 = true := by
        rw [← handleEvent_isSome reqId ev, hh]; rfl
      simp only [List.find?, he]
      simp [runEventsAux_called, hh]

/-- Auxiliary for C3: every invocation record produced by a handler carries
the request handle as its third argument. -/
theorem handleEvent_request (reqId : Nat) (ev : AjaxEvent × ReqSnapshot)
    (c : CbCall) (h : handleEvent reqId ev = some c) : c.request = reqId := by
  obtain ⟨e, req⟩ := ev
  cases e <;> simp only [handleEvent] at h
  · injection h with h2; subst h2; rfl
  · split at h
    · injection h with h2; subst h2; rfl
    · exact Option.noConfusion h
  · injection h with h2; subst h2; rfl
  · injection h with h2; subst h2; rfl
  · injection h with h2; subst h2; rfl

/-- C3: across every sequence of transport completion events, the supplied
callback is invoked exactly once (and not at all when no effective
completion event occurs); whenever the first effective event is `onabort`,
`ontimeout` or `onerror` and the transport carries no status and no
response payload, the callback receives a `null` status code and the
literal sentinel `"Abort"`, `"Timeout"` or `"Error"` respectively; and
every invocation passes the underlying request handle as the third
argument. -/
theorem ajax_callback_exactly_once_with_sentinels :
    (∀ (reqId : Nat) (evs : List (AjaxEvent × ReqSnapshot)),
      (runEvents reqId evs).length =
        (if evs.any (fun ev => effectiveEvent ev.1) then 1 else 0)) ∧
    (∀ (reqId : Nat) (evs : List (AjaxEvent × ReqSnapshot)) (c : CbCall),
      c ∈ runEvents reqId evs → c.request = reqId) ∧
    (∀ (reqId : Nat) (evs : List (AjaxEvent × ReqSnapshot)) (req : ReqSnapshot),
      req.status = none → truthy req.response = false →
      truthy req.responseText = false →
      (evs.find? (fun ev => effectiveEvent ev.1) = some (.onabort, req) →
        runEvents reqId evs = [⟨.null, .str "Abort", reqId⟩]) ∧
      (evs.find? (fun ev => effectiveEvent ev.1) = some (.ontimeout, req) →
        runEvents reqId evs = [⟨.null, .str "Timeout", reqId⟩]) ∧
      (evs.find? (fun ev => effectiveEvent ev.1) = some (.onerror, req) →
        runEvents reqId evs = [⟨.null, .str "Error", reqId⟩])) := by
  refine ⟨?_, ?_, ?_⟩
  · intro reqId evs
    rw [runEvents_eq_first_effective]
    cases hf : evs.find? (fun ev => effectiveEvent ev.1) with
    | none =>
      have : evs.any (fun ev => effectiveEvent ev.1) = false := by
        rw [List.any_eq_false]
        intro ev hev
        have := List.find?_eq_none.mp hf ev hev
        simpa using this
      simp [this]
    | some ev =>
      have hmem := List.mem_of_find?_eq_some hf
      have hp := List.find?_some hf
      have hany : evs.any (fun ev => effectiveEvent ev.1) = true :=
        List.any_eq_true.mpr ⟨ev, hmem, hp⟩
      have hsome : (handleEvent reqId ev).isSome = true := by
        rw [handleEvent_isSome]; exact hp
      cases hc : handleEvent reqId ev with
      | none => rw [hc] at hsome; cases hsome
      | some c => simp [hany, hc]
  · intro reqId evs c hc
    rw [runEvents_eq_first_effective] at hc
    cases hf : evs.find? (fun ev => effectiveEvent ev.1) with
    | none => rw [hf] at hc; cases hc
    | some ev =>
      rw [hf] at hc
      simp only [Option.bind] at hc
      cases hh : handleEvent reqId ev with
      | none => rw [hh] at hc; cases hc
      | some c2 =>
        rw [hh] at hc
        have hceq : c = c2 := by simpa using hc
        subst hceq
        exact handleEvent_request reqId ev c hh
  · intro reqId evs req h1 h2 h3
    refine ⟨?_, ?_, ?_⟩ <;>
      · intro hf
        rw [runEvents_eq_first_effective, hf]
        simp [Option.bind, handleEvent, mkCb, h1, jsOr, h2, h3]

/-- Witness for C3: a lone `onabort` event on a transport with no status
and no response text yields exactly one callback invocation, with a `null`
status, the sentinel `"Abort"`, and the request handle. -/
theorem ajax_callback_exactly_once_with_sentinels_witness :
    runEvents 0 [(.onabort, ⟨none, .undef, .undef⟩)] =
      [⟨.null, .str "Abort", 0⟩] :=
  (ajax_callback_exactly_once_with_sentinels.2.2 0
    [(.onabort, ⟨none, .undef, .undef⟩)] ⟨none, .undef, .undef⟩
    rfl rfl rfl).1 rfl

/-- Auxiliary for C10: a successful `find?` returns the first element of
the list satisfying the predicate. -/
theorem find?_first_split {α : Type} (p : α → Bool) :
    ∀ (l : List α) (g : α), l.find? p = some g →
      p g = true ∧ ∃ pre post, l = pre ++ g :: post ∧ ∀ q ∈ pre, p q = false := by
  intro l
  induction l with
  | nil => intro g h; exact Option.noConfusion h
  | cons x rest ih =>
    intro g h
    cases hp : p x with
    | true =>
      rw [List.find?_cons_of_pos _ hp] at h
      injection h with h2
      subst h2
      exact ⟨hp, [], rest, rfl, by intro q hq; exact absurd hq (List.not_mem_nil q)⟩
    | false =>
      rw [List.find?_cons_of_neg _ (by rw [hp]; exact Bool.false_ne_true)] at h
      obtain ⟨hg, pre, post, heq, hall⟩ := ih g h
      refine ⟨hg, x :: pre, post, by rw [heq]; rfl, ?_⟩
      intro q hq
      rcases List.mem_cons.mp hq with hq1 | hq2
      · rw [hq1]; exact hp
      · exact hall q hq2

/-- C10: whenever `scrollY` scrolls at all (the element is at least partly
out of view), the element whose `scrollTop` is assigned is the nearest
`offsetParent` ancestor whose `scrollHeight` exceeds its `offsetHeight`,
falling back to `document.body` when no ancestor qualifies; the
`scrollElement` argument is overwritten before use, so the outcome is
identical for every caller-supplied container — the caller's container is
only touched when it happens to be the computed one. -/
theorem scrollY_targets_computed_container (el : Elem) (padding : Option Int)
    (scrollElement : Nat) (clientWidth clientHeight : Int) (bodyId : Nat)
    (h : isOutOfView el true clientWidth clientHeight = true) :
    (∀ other : Nat,
      scrollY el padding scrollElement clientWidth clientHeight bodyId =
        scrollY el padding other clientWidth clientHeight bodyId) ∧
    (∃ scrollTo : Int,
      scrollY el padding scrollElement clientWidth clientHeight bodyId =
        some ((match findClosestScrollableOffsetParent el with
          | some p => p.id
          | none => bodyId), scrollTo)) ∧
    (∀ g, findClosestScrollableOffsetParent el = some g →
      (g.scrollHeight > g.offsetHeight) ∧
      ∃ pre post, el.ancestors = pre ++ g :: post ∧
        ∀ q ∈ pre, ¬ q.scrollHeight > q.offsetHeight) ∧
    (findClosestScrollableOffsetParent el = none →
      ∀ q ∈ el.ancestors, ¬ q.scrollHeight > q.offsetHeight) := by
  refine ⟨fun other => rfl, ?_, ?_, ?_⟩
  · refine ⟨if (offset el).windowTop + (offset el).height > clientHeight then
      ((offset el).offsetTop - clientHeight) + (offset el).height +
        (match padding with | none => 0 | some p => p)
    else el.self.offsetTop - (match padding with | none => 0 | some p => p), ?_⟩
    rw [scrollY.eq_def, h]
    simp
  · intro g hg
    obtain ⟨hp, pre, post, heq, hall⟩ :=
      find?_first_split _ el.ancestors g hg
    refine ⟨by simpa using hp, pre, post, heq, ?_⟩
    intro q hq
    have := hall q hq
    simpa using this
  · intro hnone q hq
    have := List.find?_eq_none.mp hnone q hq
    simpa using this

/-- Witness for C10: an element 250 pixels down inside a 100-pixel-high
scrollable ancestor (id 2), out of view in a 100-pixel viewport — the
outcome is independent of the caller-supplied container argument. -/
theorem scrollY_targets_computed_container_witness :
    scrollY ⟨⟨1, 0, 250, 0, 0, 50, 20, 20⟩, [⟨2, 0, 0, 0, 0, 100, 100, 400⟩]⟩
        none 99 100 100 7 =
      scrollY ⟨⟨1, 0, 250, 0, 0, 50, 20, 20⟩, [⟨2, 0, 0, 0, 0, 100, 100, 400⟩]⟩
        none 55 100 100 7 :=
  (scrollY_targets_computed_container
    ⟨⟨1, 0, 250, 0, 0, 50, 20, 20⟩, [⟨2, 0, 0, 0, 0, 100, 100, 400⟩]⟩
    none 99 100 100 7 (by decide)).1 55

end Fossen
